import Mathlib

/-!
# Verification of the reMarkable task-prioritizer pipeline

Shallow embedding of `src/agents/smart_todo_list_schedular/task_prioritizer.py`
(helper functions `load_processed_email_ids`, `save_processed_email_id`,
`parse_duration_string`, `create_calendar_events_from_tasks`, and the `main`
orchestration loop), together with theorems settling the spec claims.

Modelling conventions:
* `datetime.datetime` instants are minutes since an arbitrary epoch (`Nat`);
  `datetime.date` values are day numbers since the same epoch.  `timedelta`
  values are minute counts.  `datetime.combine`, `.hour`, `.date()` become
  arithmetic on these numbers.
* A Python exception escaping a function is `Except.error`; normal returns are
  `Except.ok`.  The source never imports `re`, so `re.match` inside
  `parse_duration_string` raises `NameError` whenever the guard
  `if not duration_str` falls through; that exception is part of the model.
* `task.suggestedTimeOfDay` strings are only ever consumed through
  `datetime.fromisoformat` inside `try/except ValueError`, so a string is
  abstracted by its parse outcome (`IsoText.valid t` or `IsoText.malformed`);
  a present-but-empty string is falsy in Python and behaves exactly like
  `None` at every use site, so it is folded into `none`.
* The Gmail / Calendar / OCR / LLM collaborators are oracle fields of a
  `World` record: `search_messages` yields `candidates`, `get_message` plus
  `download_attachments` success is `fetchOk`, the tasks extracted from an
  item's content are `tasksOf`, `calendar_client.create_event` (absent from
  the sources; the spec declares it `createEvent(...) -> bool`) is `createOk`,
  and `mark_message_as_read` (returns `Bool`, never throws) is `markReadOk`.
-/

namespace TaskPrioritizer

/-- A `datetime.datetime` instant: minutes since the epoch. -/
abbrev Instant := Nat

/-- A `datetime.date`: days since the epoch. -/
abbrev Day := Nat

/-- Python `datetime.combine(d, time(...))` where the time of day is given in
minutes past midnight. -/
def combine (d : Day) (minuteOfDay : Nat) : Instant := d * 1440 + minuteOfDay

/-- Python `t.date()` for a `datetime` instant. -/
def dateOf (t : Instant) : Day := t / 1440

/-- Python `t.hour` for a `datetime` instant. -/
def hourOf (t : Instant) : Nat := t % 1440 / 60

/-- Python `t.time()` as minutes past midnight. -/
def timeOf (t : Instant) : Nat := t % 1440

/-- An ISO-timestamp string abstracted by its `datetime.fromisoformat`
outcome: either it parses to an instant or the call raises `ValueError`. -/
inductive IsoText where
  | valid (t : Instant)
  | malformed
  deriving DecidableEq

/-- Field `task.dueDate`: per the source comment, `datetime.date`,
`datetime.datetime`, or `None`.  `isinstance(x, datetime)` is tested before
`isinstance(x, date)`, matching this tagged representation. -/
inductive DueDate where
  | absent
  | onDate (d : Day)
  | atDateTime (t : Instant)
  deriving DecidableEq

/-- The fields of `src/models/task_model.py`'s `Task` consumed by
`create_calendar_events_from_tasks`.  The provenance fields `source_line` and
`line_number` feed only the human-readable description string and are
omitted. -/
structure Task where
  task : String
  priority : String
  dueDate : DueDate
  suggestedTimeOfDay : Option IsoText
  suggestedDuration : Option String
  deriving DecidableEq

/-- Function `parse_duration_string` (task_prioritizer.py lines 64-82).  The falsy
guard `if not duration_str` returns the 1-hour default for `None` and for the
empty string.  Every other input reaches `re.match(...)` on line 72, and the
module never imports `re`, so the call raises `NameError`; the regex /
"flexible" / fallback branches on lines 73-82 are unreachable. -/
def parse_duration_string : Option String → Except String Nat
  | none => .ok 60
  | some s => if s = "" then .ok 60 else .error "NameError: re is not defined"

/-- The scheduling window handed to `calendar_client.create_event`.  The
source passes either two `datetime` instants (a timed event) or two `date`
values (an all-day event, end exclusive); the dynamic type plays the role of
the spec's `isAllDay` flag. -/
inductive EventWindow where
  | timed (startAt endAt : Instant)
  | allDay (startDate endDate : Day)
  deriving DecidableEq

/-- The spec's `isAllDay` flag, read off the window's variant. -/
def EventWindow.isAllDay : EventWindow → Bool
  | .allDay _ _ => true
  | .timed _ _ => false

/-- View of an `Except` result as a sum, to transport decidability. -/
def exceptToSum (r : Except String EventWindow) : String ⊕ EventWindow :=
  match r with
  | .error e => .inl e
  | .ok w => .inr w

instance : DecidableEq (Except String EventWindow) := fun a b =>
  decidable_of_iff (exceptToSum a = exceptToSum b)
    (by cases a <;> cases b <;> simp [exceptToSum])

/-- The per-task body of `create_calendar_events_from_tasks`
(task_prioritizer.py lines 117-165): the five-way cascade that computes
`start_datetime_for_event` / `end_datetime_for_event`.  `now` is the value
the ambient clock would deliver to the `date.today()` / `datetime.now()`
calls on lines 153-154 and 161-162 (the source has no such parameter; it
reads the clock implicitly).  An uncaught exception — the `NameError` from
`parse_duration_string`, which the `except ValueError` handlers do not
catch — is an `Except.error`. -/
def resolveWindow (task : Task) (now : Instant) : Except String EventWindow :=
  match task.dueDate with
  | .atDateTime t =>
      -- lines 122-125: explicit date AND time
      match parse_duration_string task.suggestedDuration with
      | .error e => .error e
      | .ok dur => .ok (.timed t (t + dur))
  | .onDate d =>
      -- lines 126-143: explicit date only
      match task.suggestedTimeOfDay with
      | some (.valid t) =>
          -- lines 129-135: combine explicit date with the LLM time-of-day
          match parse_duration_string task.suggestedDuration with
          | .error e => .error e
          | .ok dur =>
              .ok (.timed (combine d (timeOf t)) (combine d (timeOf t) + dur))
      | some .malformed =>
          -- lines 136-139: fromisoformat raised ValueError: all-day fallback
          .ok (.allDay d (d + 1))
      | none =>
          -- lines 140-143: no suggested time: all-day fallback
          .ok (.allDay d (d + 1))
  | .absent =>
      match task.suggestedTimeOfDay with
      | some (.valid t) =>
          -- lines 146-149: no explicit date, usable suggested timestamp
          match parse_duration_string task.suggestedDuration with
          | .error e => .error e
          | .ok dur => .ok (.timed t (t + dur))
      | some .malformed =>
          -- lines 150-157: malformed suggestion: default slot
          .ok (.timed (combine (if 17 ≤ hourOf now then dateOf now + 1 else dateOf now) (9 * 60))
                (combine (if 17 ≤ hourOf now then dateOf now + 1 else dateOf now) (9 * 60) + 60))
      | none =>
          -- lines 158-165: nothing at all: default slot
          .ok (.timed (combine (if 17 ≤ hourOf now then dateOf now + 1 else dateOf now) (9 * 60))
                (combine (if 17 ≤ hourOf now then dateOf now + 1 else dateOf now) (9 * 60) + 60))

/-- Whether a task lands in the default-slot fallback (the only branch of the
cascade whose result depends on the clock). -/
def usesDefaultSlot (task : Task) : Bool :=
  match task.dueDate, task.suggestedTimeOfDay with
  | .absent, none => true
  | .absent, some .malformed => true
  | _, _ => false

/-! ## The ingestion run (`main`, task_prioritizer.py lines 181-277)

The collaborators are deterministic oracles bundled in a `World`; running the
pipeline twice "on an unchanged candidate set" is running it twice with the
same `World`. -/

/-- The environment of one `main` run. -/
structure World where
  /-- `gmail_client.search_messages(query)` (line 211). -/
  candidates : List String
  /-- `get_message` returned a message and `download_attachments` did not
  raise (lines 221-234); on `false` the loop hits `continue`. -/
  fetchOk : String → Bool
  /-- `all_tasks_from_email` accumulated for the item from its attachments
  or body (lines 227-265). -/
  tasksOf : String → List Task
  /-- Result of `calendar_client.create_event` for the item's i-th task
  (line 169).  The calendar client is not among the sources; the spec
  declares `createEvent(...) -> bool`, so the call returns a Bool and does
  not throw.  The caller discards this value. -/
  createOk : String → Nat → Bool
  /-- `gmail_client.mark_message_as_read(msg_id)` (line 269); returns a
  Bool, never throws. -/
  markReadOk : String → Bool
  /-- The ambient clock during the run, read implicitly by
  `create_calendar_events_from_tasks`. -/
  now : Instant

/-- One `calendar_client.create_event(...)` call: which item, which task
index, and the Bool the collaborator returned (which the caller ignores). -/
structure EventCall where
  emailId : String
  taskIdx : Nat
  ok : Bool
  deriving DecidableEq

/-- The `for task in tasks` loop of `create_calendar_events_from_tasks`
(lines 100-177): each task's window is resolved and `create_event` is
invoked.  If resolution raises (the `NameError` of
`parse_duration_string`), the exception propagates — no handler exists in
`create_calendar_events_from_tasks` or `main` — so the run dies; the second
component records that crash, and only the calls already made are kept. -/
def materialize (w : World) (id : String) : List Task → Nat → List EventCall × Bool
  | [], _ => ([], false)
  | t :: ts, i =>
      match resolveWindow t w.now with
      | .error _ => ([], true)
      | .ok _ =>
          let rest := materialize w id ts (i + 1)
          (⟨id, i, w.createOk id i⟩ :: rest.1, rest.2)

/-- The `for msg_id in new_message_ids` loop (lines 219-275) over the
already-filtered id list, threading the persisted ledger (abstracted to the
list of recorded ids).  Per item: skip on fetch failure; if the task list is
empty, do nothing (line 274-275); otherwise materialize every task, and —
only if `mark_message_as_read` returns true — append the id to the ledger
(lines 267-273).  A crash inside materialization ends the whole run. -/
def processLoop (w : World) : List String → List String → List String × List EventCall
  | [], led => (led, [])
  | id :: rest, led =>
      if w.fetchOk id then
        if (w.tasksOf id).isEmpty then processLoop w rest led
        else
          if (materialize w id (w.tasksOf id) 0).2 then
            (led, (materialize w id (w.tasksOf id) 0).1)
          else
            ((processLoop w rest (if w.markReadOk id then led ++ [id] else led)).1,
              (materialize w id (w.tasksOf id) 0).1 ++
                (processLoop w rest (if w.markReadOk id then led ++ [id] else led)).2)
      else processLoop w rest led

/-- One full `main` run starting from the persisted ledger `stored`
(the result of `load_processed_email_ids()`, line 202): filter the candidate
ids against the snapshot (line 212), then process each survivor.  Returns
the final ledger and the log of `create_event` calls. -/
def runPipeline (w : World) (stored : List String) : List String × List EventCall :=
  processLoop w (w.candidates.filter (fun id => !stored.contains id)) stored

/-- Replace a world's `create_event` oracle, leaving everything else as is. -/
def setCreateOk (w : World) (c : String → Nat → Bool) : World :=
  ⟨w.candidates, w.fetchOk, w.tasksOf, c, w.markReadOk, w.now⟩

/-! ## The ledger file (`load_processed_email_ids` / `save_processed_email_id`,
task_prioritizer.py lines 38-46)

The log file is a list of characters.  `save_processed_email_id` appends
`email_id + '\n'`; `load_processed_email_ids` iterates over the file's
lines, strips each, and keeps the non-empty results as a set (membership in
the returned list is the set). -/

/-- The whitespace test of Python's `str.strip()` (restricted to the ASCII
whitespace that can occur here). -/
def isPySpace (c : Char) : Bool :=
  c = ' ' || c = '\t' || c = '\n' || c = '\r'

/-- Python `line.strip()`: drop whitespace from both ends. -/
def pyStrip (s : List Char) : List Char :=
  ((s.dropWhile isPySpace).reverse.dropWhile isPySpace).reverse

/-- Split a file's characters at `'\n'` (the line separators are dropped;
`str.strip()` would delete them from every line anyway, so this agrees with
Python's file-line iteration after stripping). -/
def splitNl : List Char → List (List Char)
  | [] => [[]]
  | c :: cs =>
      if c = '\n' then [] :: splitNl cs
      else
        match splitNl cs with
        | [] => [[c]]
        | l :: ls => (c :: l) :: ls

/-- Function `load_processed_email_ids()` on a file's contents (lines 38-42): the
stripped, non-empty lines.  List membership gives the loaded set. -/
def loadIds (file : List Char) : List (List Char) :=
  ((splitNl file).map pyStrip).filter (fun l => !l.isEmpty)

/-- Function `save_processed_email_id(email_id)` (lines 44-46): append
`email_id + '\n'` to the file. -/
def saveId (file : List Char) (id : List Char) : List Char :=
  file ++ id ++ ['\n']

/-- Files reachable by the program: the empty file (or a missing one) plus
whatever `save_processed_email_id` appended — a concatenation of
newline-terminated, newline-free lines. -/
inductive Ledgerish : List Char → Prop
  | nil : Ledgerish []
  | line (l rest : List Char) (h : '\n' ∉ l) (hr : Ledgerish rest) :
      Ledgerish (l ++ '\n' :: rest)

/-! ### Lemmas about `pyStrip` -/

theorem dropWhile_head_false {p : Char → Bool} {l : List Char} {c : Char}
    {cs : List Char} (h : l.dropWhile p = c :: cs) : p c = false := by
  have hm := List.head?_dropWhile_not p l
  rw [h] at hm
  simpa using hm

theorem dropWhile_dropWhile (p : Char → Bool) (l : List Char) :
    (l.dropWhile p).dropWhile p = l.dropWhile p := by
  cases h : l.dropWhile p with
  | nil => rfl
  | cons c cs => rw [List.dropWhile_cons_of_neg]; simp [dropWhile_head_false h]

theorem pyStrip_head_false {s : List Char} {c : Char} {cs : List Char}
    (h : pyStrip s = c :: cs) : isPySpace c = false := by
  unfold pyStrip at h
  set u := s.dropWhile isPySpace with hu
  have hsplit := List.takeWhile_append_dropWhile isPySpace u.reverse
  have hu2 : u = (u.reverse.takeWhile isPySpace ++ u.reverse.dropWhile isPySpace).reverse := by
    rw [hsplit, List.reverse_reverse]
  rw [List.reverse_append] at hu2
  have hhead : u.head? = some c := by
    rw [hu2, List.head?_append, h]
    rfl
  cases hcu : u with
  | nil => rw [hcu] at hhead; simp at hhead
  | cons a as =>
      rw [hcu] at hhead
      simp only [List.head?_cons, Option.some.injEq] at hhead
      subst hhead
      exact dropWhile_head_false hcu

theorem pyStrip_stripped {s : List Char} : pyStrip s ≠ [] →
    (pyStrip s).dropWhile isPySpace = pyStrip s ∧
    (pyStrip s).reverse.dropWhile isPySpace = (pyStrip s).reverse := by
  intro hne
  constructor
  · cases h : pyStrip s with
    | nil => exact absurd h hne
    | cons c cs =>
        rw [List.dropWhile_cons_of_neg]
        simp [pyStrip_head_false h]
  · simp only [pyStrip, List.reverse_reverse]
    exact dropWhile_dropWhile _ _

theorem pyStrip_idem (s : List Char) : pyStrip (pyStrip s) = pyStrip s := by
  by_cases hne : pyStrip s = []
  · rw [hne]; rfl
  · obtain ⟨h1, h2⟩ := pyStrip_stripped hne
    show (((pyStrip s).dropWhile isPySpace).reverse.dropWhile isPySpace).reverse = pyStrip s
    rw [h1, h2, List.reverse_reverse]

/-! ### Lemmas about `splitNl`, `loadIds`, `saveId` -/

theorem splitNl_ne_nil (f : List Char) : splitNl f ≠ [] := by
  induction f with
  | nil => simp [splitNl]
  | cons c cs ih =>
      rw [splitNl]
      split
      · simp
      · cases h : splitNl cs with
        | nil => simp
        | cons l ls => simp

theorem splitNl_line {l : List Char} (g : List Char) (h : '\n' ∉ l) :
    splitNl (l ++ '\n' :: g) = l :: splitNl g := by
  induction l with
  | nil => simp [splitNl]
  | cons c cs ih =>
      have hc : c ≠ '\n' := by intro hc; exact h (hc ▸ List.mem_cons_self c cs)
      have hcs : '\n' ∉ cs := fun hm => h (List.mem_cons_of_mem c hm)
      rw [List.cons_append, splitNl, if_neg hc, ih hcs]

theorem mem_loadIds_line {l : List Char} (g : List Char) (x : List Char)
    (h : '\n' ∉ l) :
    x ∈ loadIds (l ++ '\n' :: g) ↔
      (x = pyStrip l ∧ pyStrip l ≠ []) ∨ x ∈ loadIds g := by
  unfold loadIds
  rw [splitNl_line g h]
  simp only [List.map_cons, List.filter_cons]
  split
  · next hkeep =>
      simp only [List.mem_cons]
      constructor
      · rintro (rfl | hx)
        · exact Or.inl ⟨rfl, by simpa using hkeep⟩
        · exact Or.inr hx
      · rintro (⟨rfl, -⟩ | hx)
        · exact Or.inl rfl
        · exact Or.inr hx
  · next hdrop =>
      have : pyStrip l = [] := by
        by_contra hne
        exact hdrop (by simpa using hne)
      constructor
      · exact fun hx => Or.inr hx
      · rintro (⟨rfl, hne⟩ | hx)
        · exact absurd this hne
        · exact hx

theorem saveId_ledgerish {f id : List Char} (hf : Ledgerish f)
    (hid : '\n' ∉ id) : Ledgerish (saveId f id) := by
  induction hf with
  | nil =>
      have : saveId [] id = id ++ '\n' :: [] := by simp [saveId]
      rw [this]
      exact Ledgerish.line id [] hid Ledgerish.nil
  | line l rest h hr ih =>
      have : saveId (l ++ '\n' :: rest) id = l ++ '\n' :: saveId rest id := by
        simp [saveId]
      rw [this]
      exact Ledgerish.line l _ h ih

theorem mem_loadIds_save {f id : List Char} (hf : Ledgerish f)
    (hid : '\n' ∉ id) (x : List Char) :
    x ∈ loadIds (saveId f id) ↔
      x ∈ loadIds f ∨ (x = pyStrip id ∧ pyStrip id ≠ []) := by
  induction hf with
  | nil =>
      have hsave : saveId [] id = id ++ '\n' :: [] := by simp [saveId]
      rw [hsave, mem_loadIds_line [] x hid]
      have hload : loadIds [] = [] := by rfl
      have hload2 : loadIds ([] : List Char) = [] := hload
      constructor
      · rintro (hx | hx)
        · exact Or.inr hx
        · rw [hload] at hx; cases hx
      · rintro (hx | hx)
        · rw [hload2] at hx; cases hx
        · exact Or.inl hx
  | line l rest h hr ih =>
      have hsave : saveId (l ++ '\n' :: rest) id = l ++ '\n' :: saveId rest id := by
        simp [saveId]
      rw [hsave, mem_loadIds_line _ x h, mem_loadIds_line _ x h, ih]
      tauto

theorem mem_loadIds_strip {g x : List Char} (hx : x ∈ loadIds g) :
    pyStrip x = x ∧ x ≠ [] := by
  unfold loadIds at hx
  simp only [List.mem_filter, List.mem_map, Bool.not_eq_eq_eq_not, Bool.not_true] at hx
  obtain ⟨⟨l, -, rfl⟩, hne⟩ := hx
  refine ⟨pyStrip_idem l, ?_⟩
  intro hnil
  rw [hnil] at hne
  simp at hne

/-! ### Lemmas about the pipeline run -/

theorem materialize_emailId {w : World} {id : String} :
    ∀ (ts : List Task) (i : Nat) (e : EventCall),
      e ∈ (materialize w id ts i).1 → e.emailId = id := by
  intro ts
  induction ts with
  | nil => intro i e he; cases he
  | cons t ts ih =>
      intro i e he
      rw [materialize] at he
      cases hr : resolveWindow t w.now with
      | error msg => rw [hr] at he; cases he
      | ok win =>
          rw [hr] at he
          simp only [List.mem_cons] at he
          cases he with
          | inl h => rw [h]
          | inr h => exact ih (i + 1) e h

theorem materialize_crash_setCreateOk (w : World) (c : String → Nat → Bool)
    (id : String) : ∀ (ts : List Task) (i : Nat),
      (materialize (setCreateOk w c) id ts i).2 = (materialize w id ts i).2 := by
  intro ts
  induction ts with
  | nil => intro i; rfl
  | cons t ts ih =>
      intro i
      rw [materialize, materialize]
      have hnow : (setCreateOk w c).now = w.now := rfl
      rw [hnow]
      cases hr : resolveWindow t w.now with
      | error msg => rfl
      | ok win => simpa using ih (i + 1)

theorem processLoop_events_mem {w : World} :
    ∀ (ids : List String) (led : List String) (e : EventCall),
      e ∈ (processLoop w ids led).2 → e.emailId ∈ ids := by
  intro ids
  induction ids with
  | nil => intro led e he; cases he
  | cons id rest ih =>
      intro led e he
      rw [processLoop] at he
      by_cases hf : w.fetchOk id
      · rw [if_pos hf] at he
        by_cases ht : (w.tasksOf id).isEmpty
        · rw [if_pos ht] at he
          exact List.mem_cons_of_mem id (ih led e he)
        · rw [if_neg ht] at he
          by_cases hc : (materialize w id (w.tasksOf id) 0).2
          · rw [if_pos hc] at he
            have := materialize_emailId (w.tasksOf id) 0 e he
            rw [this]
            exact List.mem_cons_self id rest
          · rw [if_neg hc] at he
            simp only [List.mem_append] at he
            cases he with
            | inl h =>
                have := materialize_emailId (w.tasksOf id) 0 e h
                rw [this]
                exact List.mem_cons_self id rest
            | inr h => exact List.mem_cons_of_mem id (ih _ e h)
      · rw [if_neg hf] at he
        exact List.mem_cons_of_mem id (ih led e he)

theorem processLoop_ledger_mem {w : World} :
    ∀ (ids : List String) (led : List String) (x : String),
      x ∈ (processLoop w ids led).1 →
        x ∈ led ∨ (x ∈ ids ∧ w.tasksOf x ≠ []) := by
  intro ids
  induction ids with
  | nil => intro led x hx; exact Or.inl hx
  | cons id rest ih =>
      intro led x hx
      rw [processLoop] at hx
      by_cases hf : w.fetchOk id
      · rw [if_pos hf] at hx
        by_cases ht : (w.tasksOf id).isEmpty
        · rw [if_pos ht] at hx
          rcases ih led x hx with h | ⟨h1, h2⟩
          · exact Or.inl h
          · exact Or.inr ⟨List.mem_cons_of_mem id h1, h2⟩
        · rw [if_neg ht] at hx
          by_cases hc : (materialize w id (w.tasksOf id) 0).2
          · rw [if_pos hc] at hx
            exact Or.inl hx
          · rw [if_neg hc] at hx
            by_cases hm : w.markReadOk id
            · rw [if_pos hm] at hx
              rcases ih _ x hx with h | ⟨h1, h2⟩
              · rw [List.mem_append] at h
                cases h with
                | inl h => exact Or.inl h
                | inr h =>
                    have hxid : x = id := by simpa using h
                    refine Or.inr ⟨hxid ▸ List.mem_cons_self id rest, ?_⟩
                    rw [hxid]
                    intro hnil
                    rw [hnil] at ht
                    exact ht rfl
              · exact Or.inr ⟨List.mem_cons_of_mem id h1, h2⟩
            · rw [if_neg hm] at hx
              rcases ih _ x hx with h | ⟨h1, h2⟩
              · exact Or.inl h
              · exact Or.inr ⟨List.mem_cons_of_mem id h1, h2⟩
      · rw [if_neg hf] at hx
        rcases ih led x hx with h | ⟨h1, h2⟩
        · exact Or.inl h
        · exact Or.inr ⟨List.mem_cons_of_mem id h1, h2⟩

theorem processLoop_setCreateOk (w : World) (c : String → Nat → Bool) :
    ∀ (ids : List String) (led : List String),
      (processLoop (setCreateOk w c) ids led).1 = (processLoop w ids led).1 := by
  intro ids
  induction ids with
  | nil => intro led; rfl
  | cons id rest ih =>
      intro led
      rw [processLoop, processLoop]
      have hf : (setCreateOk w c).fetchOk = w.fetchOk := rfl
      have ht : (setCreateOk w c).tasksOf = w.tasksOf := rfl
      have hm : (setCreateOk w c).markReadOk = w.markReadOk := rfl
      rw [hf, ht, hm, materialize_crash_setCreateOk w c id (w.tasksOf id) 0]
      by_cases hfe : w.fetchOk id
      · rw [if_pos hfe, if_pos hfe]
        by_cases hte : (w.tasksOf id).isEmpty
        · rw [if_pos hte, if_pos hte]
          exact ih led
        · rw [if_neg hte, if_neg hte]
          by_cases hc : (materialize w id (w.tasksOf id) 0).2
          · rw [if_pos hc, if_pos hc]
          · rw [if_neg hc, if_neg hc]
            simp only [ih]
      · rw [if_neg hfe, if_neg hfe]
        exact ih led

/-! ## Concrete fixtures used by witnesses and counterexamples -/

/-- A task with an explicit date-and-time due date and no duration hint. -/
def taskReport : Task :=
  ⟨"write report", "high", .atDateTime (combine 10 600), none, none⟩

/-- A second such task, for the two-task item of claim C2. -/
def taskInvites : Task :=
  ⟨"send invites", "medium", .atDateTime (combine 10 720), none, none⟩

/-- A task with no due date and no suggested time: default-slot branch. -/
def taskNoSignal : Task := ⟨"buy milk", "low", .absent, none, none⟩

/-- World with one candidate item carrying one task; everything succeeds. -/
def wOneTask : World :=
  ⟨["e1"], fun _ => true, fun _ => [taskReport], fun _ _ => true,
    fun _ => true, combine 5 600⟩

/-- World with one candidate item carrying two tasks, where the second
`create_event` call returns `false` while `mark_message_as_read`
succeeds. -/
def wTwoTasks : World :=
  ⟨["e1"], fun _ => true, fun _ => [taskReport, taskInvites],
    fun _ i => i == 0, fun _ => true, combine 5 600⟩

/-- World with one candidate item from which zero tasks are extracted. -/
def wNoTasks : World :=
  ⟨["e2"], fun _ => true, fun _ => [], fun _ _ => true, fun _ => true,
    combine 5 600⟩

/-! ## Claim theorems -/

/-- C1.  Run-level idempotency: if a pipeline run over world `w` starting
from ledger `L` ends with item `id` committed to the ledger, then a second
run over the same unchanged world, starting from the ledger the first run
produced, makes zero `create_event` calls for that item — the run filters
the candidate list against the ledger snapshot taken at run start and skips
every id already present. -/
theorem second_run_materializes_no_events (w : World) (L : List String)
    (id : String) (h : id ∈ (runPipeline w L).1) :
    ((runPipeline w (runPipeline w L).1).2).filter
      (fun e => e.emailId == id) = [] := by
  rw [List.filter_eq_nil_iff]
  intro e he hbeq
  have hid : e.emailId = id := by simpa using hbeq
  rw [runPipeline] at he
  have hmem := processLoop_events_mem _ _ e he
  have hflt := (List.mem_filter.mp hmem).2
  rw [hid] at hflt
  simp only [List.contains, List.elem_eq_mem, Bool.not_eq_eq_eq_not,
    Bool.not_true, decide_eq_false_iff_not] at hflt
  exact hflt h

/-- Witness for C1: in the concrete world `wOneTask`, the first run commits
`"e1"` and the second run materializes nothing for it. -/
theorem second_run_materializes_no_events_witness :
    "e1" ∈ (runPipeline wOneTask []).1 ∧
    ((runPipeline wOneTask (runPipeline wOneTask []).1).2).filter
      (fun e => e.emailId == "e1") = [] :=
  ⟨by decide, second_run_materializes_no_events wOneTask [] "e1" (by decide)⟩

/-- C2 counterexample.  In `wTwoTasks` the item `"e1"` has two tasks, the
second `create_event` call returns `false` (a failed materialization is in
the call log), and yet `"e1"` IS in the ledger after the run: `main` never
inspects `create_event`'s return value and commits whenever
`mark_message_as_read` succeeds.  This refutes the claim that a
materialization failure leaves the id out of the ledger. -/
theorem failed_materialization_still_committed_cex :
    wTwoTasks.tasksOf "e1" ≠ [] ∧
    (⟨"e1", 1, false⟩ : EventCall) ∈ (runPipeline wTwoTasks []).2 ∧
    "e1" ∈ (runPipeline wTwoTasks []).1 := by decide

/-- C2 amended.  The final ledger of a run is entirely independent of the
Booleans `create_event` returns: replacing that oracle by any other changes
nothing about which ids get committed. -/
theorem ledger_independent_of_materialization_results (w : World)
    (c : String → Nat → Bool) (L : List String) :
    (runPipeline (setCreateOk w c) L).1 = (runPipeline w L).1 := by
  rw [runPipeline, runPipeline]
  have hcand : (setCreateOk w c).candidates = w.candidates := rfl
  rw [hcand, processLoop_setCreateOk]

/-- C3.  Evaluation of the explicit-DateTime branch: with no duration hint
the window is `[explicitDue, explicitDue + 1h)` as claimed (second
conjunct, which also shows `suggestedDateTime` is ignored), but the moment
`suggestedDuration` is a non-empty string such as `"30 minutes"`, the
branch raises `NameError` (first conjunct) because `parse_duration_string`
calls `re.match` and the module never imports `re` — so the claimed window
is not produced. -/
theorem explicit_datetime_branch_eval :
    resolveWindow
      ⟨"review PR", "high", .atDateTime (combine 20 600),
        some (.valid (combine 21 480)), some "30 minutes"⟩ (combine 5 600) =
      .error "NameError: re is not defined" ∧
    resolveWindow
      ⟨"call plumber", "low", .atDateTime (combine 20 600),
        some (.valid (combine 21 480)), none⟩ (combine 5 600) =
      .ok (.timed (combine 20 600) (combine 20 600 + 60)) :=
  ⟨rfl, rfl⟩

/-- C4.  Graceful degradation: a task whose `dueDate` is a calendar date
and whose `suggestedTimeOfDay` is absent or malformed resolves, for every
clock value, to the all-day window `[explicitDue, explicitDue + 1 day)`
with the all-day marker set. -/
theorem date_only_unusable_suggestion_allday (t : Task) (d : Day)
    (now : Instant) (hd : t.dueDate = .onDate d)
    (hs : t.suggestedTimeOfDay = none ∨ t.suggestedTimeOfDay = some .malformed) :
    resolveWindow t now = .ok (.allDay d (d + 1)) ∧
    (EventWindow.allDay d (d + 1)).isAllDay = true := by
  constructor
  · rcases hs with hs | hs <;> simp [resolveWindow, hd, hs]
  · rfl

/-- Witness for C4: a concrete date-only task with a malformed suggested
time yields the all-day window over its due date. -/
theorem date_only_unusable_suggestion_allday_witness :
    resolveWindow
      ⟨"pay rent", "high", .onDate 30, some .malformed, some "flexible"⟩
      (combine 5 600) = .ok (.allDay 30 (30 + 1)) ∧
    (EventWindow.allDay 30 (30 + 1)).isAllDay = true :=
  date_only_unusable_suggestion_allday
    ⟨"pay rent", "high", .onDate 30, some .malformed, some "flexible"⟩
    30 (combine 5 600) rfl (Or.inr rfl)

/-- C5.  Default-slot boundary: a task with no due date and no usable
suggested time resolves to a one-hour timed window starting at 09:00 on
the clock's current day when the hour is below 17, and on the next day
otherwise. -/
theorem no_temporal_signal_default_slot (t : Task) (now : Instant)
    (hd : t.dueDate = .absent)
    (hs : t.suggestedTimeOfDay = none ∨ t.suggestedTimeOfDay = some .malformed) :
    resolveWindow t now =
      .ok (.timed
        (combine (if hourOf now < 17 then dateOf now else dateOf now + 1) (9 * 60))
        (combine (if hourOf now < 17 then dateOf now else dateOf now + 1) (9 * 60) + 60)) := by
  have hflip : (if 17 ≤ hourOf now then dateOf now + 1 else dateOf now) =
      (if hourOf now < 17 then dateOf now else dateOf now + 1) := by
    by_cases hlt : hourOf now < 17
    · rw [if_neg (by omega), if_pos hlt]
    · rw [if_pos (by omega), if_neg hlt]
  rcases hs with hs | hs <;> simp [resolveWindow, hd, hs, hflip]

/-- Witness for C5: at hour 16 the slot is today 09:00-10:00, at hour 18 it
is tomorrow 09:00-10:00. -/
theorem no_temporal_signal_default_slot_witness :
    resolveWindow taskNoSignal (combine 0 (16 * 60)) =
      .ok (.timed (combine 0 (9 * 60)) (combine 0 (9 * 60) + 60)) ∧
    resolveWindow taskNoSignal (combine 0 (18 * 60)) =
      .ok (.timed (combine 1 (9 * 60)) (combine 1 (9 * 60) + 60)) := by
  constructor
  · have h := no_temporal_signal_default_slot taskNoSignal
      (combine 0 (16 * 60)) rfl (Or.inl rfl)
    rw [h]; decide
  · have h := no_temporal_signal_default_slot taskNoSignal
      (combine 0 (18 * 60)) rfl (Or.inl rfl)
    rw [h]; decide

/-- C6 counterexample.  The source's `create_calendar_events_from_tasks`
has no current-time parameter: its only inputs are the task list, the
calendar client and a timezone string.  The embedding must therefore thread
the ambient clock as the extra argument `now`, and this theorem shows the
resolved window genuinely varies with that ambient value while every
source-level input is held fixed — the resolution is NOT a pure function
of explicitly passed inputs; the current time is read implicitly via
`date.today()` / `datetime.now()`. -/
theorem resolve_reads_ambient_clock_cex :
    resolveWindow taskNoSignal (combine 0 (16 * 60)) ≠
      resolveWindow taskNoSignal (combine 0 (18 * 60)) := by decide

/-- C6 amended.  The resolution is deterministic given the task together
with the ambient clock reading, and the clock matters only in the
default-slot branch: for every task outside that branch the result is the
same at any two clock values. -/
theorem resolve_clock_blind_outside_default_slot (t : Task)
    (n1 n2 : Instant) (h : usesDefaultSlot t = false) :
    resolveWindow t n1 = resolveWindow t n2 := by
  obtain ⟨s, p, dd, st, sd⟩ := t
  cases dd with
  | absent =>
      cases st with
      | none => simp [usesDefaultSlot] at h
      | some iso =>
          cases iso with
          | valid tt => rfl
          | malformed => simp [usesDefaultSlot] at h
  | onDate d =>
      cases st with
      | none => rfl
      | some iso => cases iso <;> rfl
  | atDateTime tt => rfl

/-- Witness for C6's amended theorem: a task with an explicit DateTime due
date resolves identically at two different clock values. -/
theorem resolve_clock_blind_outside_default_slot_witness :
    usesDefaultSlot taskReport = false ∧
    resolveWindow taskReport 0 = resolveWindow taskReport (combine 3 (23 * 60)) :=
  ⟨by decide,
    resolve_clock_blind_outside_default_slot taskReport 0
      (combine 3 (23 * 60)) (by decide)⟩

/-- C7.  Evaluation of `parse_duration_string`: `None` and the empty
string hit the falsy guard and return the 1-hour default, but ANY other
input — here the spec's own example `"gibberish"` — raises `NameError`
because line 72 calls `re.match` and `re` is never imported.  The function
is not total and does not silently fall back. -/
theorem parse_duration_raises_eval :
    parse_duration_string none = .ok 60 ∧
    parse_duration_string (some "") = .ok 60 ∧
    parse_duration_string (some "gibberish") =
      .error "NameError: re is not defined" :=
  ⟨rfl, rfl, rfl⟩

/-- C8.  Evaluation of `parse_duration_string` on well-formed
quantity-plus-unit inputs: instead of returning 45 minutes and 2 hours,
every such call raises `NameError` (the un-imported `re`), so the claimed
unit-token behaviour never executes. -/
theorem parse_duration_unit_tokens_raise_eval :
    parse_duration_string (some "45 minutes") =
      .error "NameError: re is not defined" ∧
    parse_duration_string (some "2 hours") =
      .error "NameError: re is not defined" ∧
    parse_duration_string (some "2 hrs") =
      .error "NameError: re is not defined" :=
  ⟨rfl, rfl, rfl⟩

/-- C9.  Empty-extraction non-commit: an item whose extraction yields zero
tasks is never appended to the ledger, so if its id was not in the ledger
before the run it is absent afterwards and remains a candidate for future
runs. -/
theorem empty_extraction_uncommitted (w : World) (L : List String)
    (id : String) (h1 : w.tasksOf id = []) (h2 : id ∉ L) :
    id ∉ (runPipeline w L).1 := by
  intro hx
  rw [runPipeline] at hx
  rcases processLoop_ledger_mem _ _ _ hx with h | ⟨-, hne⟩
  · exact h2 h
  · exact hne h1

/-- Witness for C9: the zero-task item `"e2"` of `wNoTasks` is absent from
the ledger after a run from the empty ledger. -/
theorem empty_extraction_uncommitted_witness :
    (wNoTasks.tasksOf "e2" = [] ∧ "e2" ∉ ([] : List String)) ∧
    "e2" ∉ (runPipeline wNoTasks []).1 :=
  ⟨⟨rfl, by decide⟩,
    empty_extraction_uncommitted wNoTasks [] "e2" rfl (by decide)⟩

/-- C10 counterexample.  The empty id satisfies the claim's hypotheses —
it contains no newline and equals its own strip — yet after saving it the
loaded set does not contain it: `load_processed_email_ids` filters out
every line whose strip is empty.  The claim's first conjunct therefore
fails at `id = ""`. -/
theorem ledger_empty_id_cex :
    pyStrip [] = [] ∧ '\n' ∉ ([] : List Char) ∧
    ([] : List Char) ∉ loadIds (saveId [] []) := by decide

/-- Helper for C10: repeated saving preserves the reachable-file shape. -/
theorem iterate_saveId_ledgerish (file id : List Char) (hf : Ledgerish file)
    (hnl : '\n' ∉ id) : ∀ n : Nat, Ledgerish ((fun f => saveId f id)^[n] file)
  | 0 => by simpa using hf
  | n + 1 => by
      rw [Function.iterate_succ_apply']
      exact saveId_ledgerish (iterate_saveId_ledgerish file id hf hnl n) hnl

/-- C10 amended.  For every ledger file reachable by the program (empty or
newline-terminated lines) and every NON-EMPTY id that contains no newline
and equals its own strip: after `save_processed_email_id` the loaded set
contains the id; ids whose strip is empty never appear in any loaded set;
and saving the same id any number of further times leaves the loaded set
exactly that of a single save. -/
theorem ledger_roundtrip (file id : List Char) (hf : Ledgerish file)
    (hnl : '\n' ∉ id) (hstrip : pyStrip id = id) (hne : id ≠ []) :
    id ∈ loadIds (saveId file id) ∧
    (∀ g x : List Char, pyStrip x = [] → x ∉ loadIds g) ∧
    (∀ n : Nat, ∀ x : List Char,
      x ∈ loadIds ((fun f => saveId f id)^[n] (saveId file id)) ↔
        x ∈ loadIds (saveId file id)) := by
  refine ⟨?_, ?_, ?_⟩
  · rw [mem_loadIds_save hf hnl]
    exact Or.inr ⟨hstrip.symm, by rw [hstrip]; exact hne⟩
  · intro g x hx hmem
    obtain ⟨hidem, hnex⟩ := mem_loadIds_strip hmem
    rw [hidem] at hx
    exact hnex hx
  · intro n
    induction n with
    | zero => intro x; rw [Function.iterate_zero_apply]
    | succ n ihn =>
        intro x
        rw [Function.iterate_succ_apply']
        have hledger : Ledgerish ((fun f => saveId f id)^[n] (saveId file id)) :=
          iterate_saveId_ledgerish (saveId file id) id
            (saveId_ledgerish hf hnl) hnl n
        rw [mem_loadIds_save hledger hnl, ihn x]
        constructor
        · rintro (hmem | hP)
          · exact hmem
          · exact (mem_loadIds_save hf hnl x).mpr (Or.inr hP)
        · exact Or.inl

/-- Witness for C10's amended theorem: saving the two-character id `e1`
into the empty ledger makes it loadable. -/
theorem ledger_roundtrip_witness :
    ['e', '1'] ∈ loadIds (saveId [] ['e', '1']) :=
  (ledger_roundtrip [] ['e', '1'] Ledgerish.nil (by decide) (by decide)
    (by decide)).1

end TaskPrioritizer
